import Mathlib

/-!
Shallow embedding of the argument-parsing library in src/src/main.ts
(namespace CLI).  JavaScript numbers are modelled by `JsNum` (NaN and the
infinities explicit, finite values as rationals), dynamic JS values by
`Value`, JS objects used as records by association lists, and the two
non-returning sinks (`displayUserError`, `displayHelp`) together with raw
`throw` by the `Failure` error type of an `Except` computation.
External primitives of the host platform (Path.resolve, parseFloat, number
formatting, JSON.stringify) are collected in a `JsEnv` parameter.
-/

namespace CliSpec

/-- A JavaScript number: NaN, the two infinities, or a finite value. -/
inductive JsNum where
  | nan : JsNum
  | posInf : JsNum
  | negInf : JsNum
  | fin : Rat → JsNum
deriving DecidableEq, Repr

/-- JS `<` on numbers: any comparison involving NaN is false. -/
def JsNum.ltb : JsNum → JsNum → Bool
  | .nan, _ => false
  | _, .nan => false
  | .negInf, .negInf => false
  | .negInf, _ => true
  | _, .negInf => false
  | .posInf, _ => false
  | .fin _, .posInf => true
  | .fin a, .fin b => decide (a < b)

/-- JS `Number.isFinite`. -/
def JsNum.isFinite : JsNum → Bool
  | .fin _ => true
  | _ => false

/-- JS `(x % 1) !== 0`: true for NaN and the infinities (x % 1 is NaN),
and for finite non-integers. -/
def JsNum.fracNonzero : JsNum → Bool
  | .fin q => decide (q.den ≠ 1)
  | _ => true

/-- JS strict equality on numbers: NaN is not equal to itself. -/
def JsNum.strictEq : JsNum → JsNum → Bool
  | .nan, _ => false
  | _, .nan => false
  | .posInf, .posInf => true
  | .negInf, .negInf => true
  | .posInf, _ => false
  | .negInf, _ => false
  | _, .posInf => false
  | _, .negInf => false
  | .fin a, .fin b => a == b

/-- A dynamic JS value as it can appear in a parsing result record. -/
inductive Value where
  | vBool : Bool → Value
  | vNum : JsNum → Value
  | vStr : String → Value
  | vArr : List Value → Value

/-- JS `typeof`, applied to a possibly-absent record member
(`none` models `undefined`; arrays have typeof "object"). -/
def jsTypeofOpt : Option Value → String
  | none => "undefined"
  | some (.vBool _) => "boolean"
  | some (.vNum _) => "number"
  | some (.vStr _) => "string"
  | some (.vArr _) => "object"

/-- JS truthiness of a possibly-absent value (`!!x`). -/
def jsTruthy : Option Value → Bool
  | none => false
  | some (.vBool b) => b
  | some (.vNum .nan) => false
  | some (.vNum (.fin q)) => !(q == 0)
  | some (.vNum _) => true
  | some (.vStr s) => !(s == "")
  | some (.vArr _) => true

/-- JS strict equality (`===`) as used by `Array.prototype.indexOf`.
Distinct array objects compare by reference, hence unequal here. -/
def jsStrictEq : Value → Value → Bool
  | .vBool a, .vBool b => a == b
  | .vNum a, .vNum b => JsNum.strictEq a b
  | .vStr a, .vStr b => a == b
  | _, _ => false

/-- The `type` discriminator strings of the `Parameter` union. -/
inductive PType where
  | bool | string | path | int | double
  | arrayOfString | arrayOfPath | arrayOfInt | arrayOfDouble
deriving DecidableEq, Repr

/-- The literal string carried by each `type` tag in the source. -/
def PType.render : PType → String
  | .bool => "bool"
  | .string => "string"
  | .path => "path"
  | .int => "int"
  | .double => "double"
  | .arrayOfString => "array of string"
  | .arrayOfPath => "array of path"
  | .arrayOfInt => "array of int"
  | .arrayOfDouble => "array of double"

/-- One option definition (the `Parameter` union flattened: fields a
variant lacks are `none`/`false`, matching `undefined` at runtime).
`default = some v` models presence of the `default` field, which is what
marks an option optional.  `mustMatch` carries the RegExp test predicate
together with its display string. -/
structure Parameter where
  type : PType
  keys : List String
  default : Option Value := none
  description : Option String := none
  allowedValues : Option (List Value) := none
  isHidden : Bool := false
  isHelp : Bool := false
  min : Option JsNum := none
  max : Option JsNum := none
  minLength : Option Value := none
  maxLength : Option Value := none
  mustMatch : Option ((String → Bool) × String) := none

/-- `isArgumentOptional`: the source tests `"default" in argDef`. -/
def isArgumentOptional (d : Parameter) : Bool := d.default.isSome

/-- `isArrayParameter`: membership of the type tag in the four array tags. -/
def isArrayParameter (d : Parameter) : Bool :=
  [PType.arrayOfString, PType.arrayOfPath, PType.arrayOfInt, PType.arrayOfDouble].contains d.type

/-- Association-list lookup, modelling JS property read (first binding wins;
the construction below never creates duplicate keys in one object). -/
def lookupAssoc {α : Type} : List (String × α) → String → Option α
  | [], _ => none
  | (k2, v) :: rest, k => if k2 = k then some v else lookupAssoc rest k

/-- JS `key in obj` membership test. -/
def hasKeyAssoc {α : Type} (l : List (String × α)) (k : String) : Bool :=
  (lookupAssoc l k).isSome

/-- JS property assignment `obj[k] = v`: replaces in place when the key
exists (keeping insertion order), appends otherwise. -/
def assocSet {α : Type} : List (String × α) → String → α → List (String × α)
  | [], k, v => [(k, v)]
  | (k2, v2) :: rest, k, v =>
    if k2 = k then (k, v) :: rest else (k2, v2) :: assocSet rest k v

/-- A parsing-result record (JS object from option name to value). -/
abbrev Rec := List (String × Value)

/-- The `Params` object driving a `Definition` (the two sink callbacks are
modelled by the `Failure` outcome type instead of fields). -/
structure Params where
  options : List (String × Parameter)
  noAutoHelp : Bool := false
  helpHeader : Option String := none
  pathResolveBase : Option String := none

/-- External host primitives the library calls:
`resolve base p` is `Path.resolve(base, p)`, `parseFloat` the JS float
parser, `numToString` JS number-to-string, `jsonStringify` JSON.stringify. -/
structure JsEnv where
  resolve : String → String → String
  parseFloat : String → JsNum
  numToString : JsNum → String
  jsonStringify : Value → String

/-- Terminal outcomes other than a normal return: a message routed to the
user-error sink, lines routed to the help sink, or a raw thrown Error. -/
inductive Failure where
  | userError : String → Failure
  | helpShown : List String → Failure
  | thrown : String → Failure
deriving DecidableEq, Repr

/-- Input of the builder helpers (`HelperFnOptions`): all parameter fields
except `type`, with `keys` still allowed as a single string or a list. -/
structure HelperOpts where
  keys : String ⊕ List String
  default : Option Value := none
  description : Option String := none
  allowedValues : Option (List Value) := none
  isHidden : Bool := false
  min : Option JsNum := none
  max : Option JsNum := none
  minLength : Option Value := none
  maxLength : Option Value := none
  mustMatch : Option ((String → Bool) × String) := none

/-- `processCommonValues`: spread the fields and normalize `keys` via
`Array.isArray(params.keys) ? params.keys : [params.keys]`. -/
def processCommonValues (t : PType) (p : HelperOpts) : Parameter :=
  { type := t
    keys := match p.keys with
      | .inl k => [k]
      | .inr ks => ks
    default := p.default
    description := p.description
    allowedValues := p.allowedValues
    isHidden := p.isHidden
    isHelp := false
    min := p.min
    max := p.max
    minLength := p.minLength
    maxLength := p.maxLength
    mustMatch := p.mustMatch }

namespace CLI

/-- `CLI.str`: builds a `"string"`-typed parameter. -/
def str (p : HelperOpts) : Parameter := processCommonValues PType.string p

/-- `CLI.strArr`: builds an `"array of string"`-typed parameter. -/
def strArr (p : HelperOpts) : Parameter := processCommonValues PType.arrayOfString p

/-- `CLI.path`: the source passes `"string"` (not `"path"`) as the tag. -/
def path (p : HelperOpts) : Parameter := processCommonValues PType.string p

/-- `CLI.pathArr`: the source passes `"array of string"` (not `"array of path"`). -/
def pathArr (p : HelperOpts) : Parameter := processCommonValues PType.arrayOfString p

/-- `CLI.number`: builds a `"double"`-typed parameter. -/
def number (p : HelperOpts) : Parameter := processCommonValues PType.double p

/-- `CLI.numberArr`: builds an `"array of double"`-typed parameter. -/
def numberArr (p : HelperOpts) : Parameter := processCommonValues PType.arrayOfDouble p

/-- `CLI.int`: builds an `"int"`-typed parameter. -/
def int (p : HelperOpts) : Parameter := processCommonValues PType.int p

/-- `CLI.intArr`: builds an `"array of int"`-typed parameter. -/
def intArr (p : HelperOpts) : Parameter := processCommonValues PType.arrayOfInt p

/-- `CLI.bool`: a `"bool"` parameter with `default` forced to `false` and
`isHelp` forced to `false` (the caller cannot supply either). -/
def bool (p : HelperOpts) : Parameter :=
  { processCommonValues PType.bool { p with default := some (Value.vBool false) } with
    isHelp := false }

/-- `CLI.help`: like `CLI.bool` but with `isHelp` set to `true`. -/
def help (p : HelperOpts) : Parameter :=
  { processCommonValues PType.bool { p with default := some (Value.vBool false) } with
    isHelp := true }

/-- `CLI.port`: an `"int"` parameter with `min` 1 and `max` 65535 forced. -/
def port (p : HelperOpts) : Parameter :=
  { processCommonValues PType.int p with
    min := some (JsNum.fin 1)
    max := some (JsNum.fin 65535) }

/-- `CLI.portArr`: the source also passes the scalar `"int"` tag here,
with the same forced bounds. -/
def portArr (p : HelperOpts) : Parameter :=
  { processCommonValues PType.int p with
    min := some (JsNum.fin 1)
    max := some (JsNum.fin 65535) }

end CLI

/-- The help option injected by `tryAddDefaultHelpOption`. -/
def defaultHelpParameter : Parameter :=
  CLI.help
    { keys := Sum.inr ["-h", "--h", "-help", "--help"]
      description := some "Display this help and exit." }

/-- `tryAddDefaultHelpOption`: unless auto-help is disabled or some option
is already a designated help bool, add the default help option under the
name `help` (object spread: replaces an existing `help` entry in place,
appends otherwise). -/
def tryAddDefaultHelpOption (params : Params) : Params :=
  if params.noAutoHelp then params
  else if params.options.any (fun e => e.2.type == PType.bool && e.2.isHelp) then params
  else { params with options := assocSet params.options "help" defaultHelpParameter }

/-- `define` / the `DefinitionImpl` constructor: it only normalizes the
params (no key-map construction happens here). -/
def cliDefine (params : Params) : Params := tryAddDefaultHelpOption params

/-- The constructor viewed as a fallible computation: its body cannot
throw, so it always returns `.ok`. -/
def cliDefineE (params : Params) : Except Failure Params :=
  .ok (tryAddDefaultHelpOption params)

/-- Inner loop of `buildKeysMap` over one option's keys: each key must not
be claimed already, then is bound to the option name. -/
def addKeys (argName : String) : List String → List (String × String) → Except Failure (List (String × String))
  | [], acc => .ok acc
  | k :: ks, acc =>
    match lookupAssoc acc k with
    | some other =>
      .error (.thrown s!"CLI argument key \"{k}\" is bound to more than one argument: \"{argName}\", \"{other}\".")
    | none => addKeys argName ks (acc ++ [(k, argName)])

/-- Outer loop of `buildKeysMap` over the options, carrying the set of
option names seen so far and the accumulated key map. -/
def buildKeysMapLoop : List (String × Parameter) → List String → List (String × String) → Except Failure (List (String × String))
  | [], _, acc => .ok acc
  | (argName, d) :: rest, knownNames, acc =>
    if d.keys.length = 0 then
      .error (.thrown s!"CLI argument \"{argName}\" has no keys with which it could be passed.")
    else if knownNames.contains argName then
      .error (.thrown s!"CLI argument \"{argName}\" is mentioned twice in arguments description.")
    else
      match addKeys argName d.keys acc with
      | .error e => .error e
      | .ok acc2 => buildKeysMapLoop rest (argName :: knownNames) acc2

/-- `buildKeysMap`: key string → owning option name. -/
def buildKeysMap (options : List (String × Parameter)) : Except Failure (List (String × String)) :=
  buildKeysMapLoop options [] []

/-- The value-token switch of `extract` for a non-boolean option: numeric
kinds go through `parseFloat`, string kinds are taken verbatim; the
unreachable `default` branch of the switch throws. -/
def parseValueToken (pf : String → JsNum) (t : PType) (tok : String) : Except Failure Value :=
  match t with
  | PType.int | PType.arrayOfInt | PType.double | PType.arrayOfDouble =>
    .ok (Value.vNum (pf tok))
  | PType.string | PType.arrayOfString | PType.path | PType.arrayOfPath =>
    .ok (Value.vStr tok)
  | PType.bool => .error (.thrown "Unexpected argument value type: bool")

/-- The result-update step of `extract`.  For an array parameter the source
does `const arr = (result[argName] as unknown[]) ?? []; arr.push(actualValue)`:
when the member is absent a fresh array receives the push and is discarded,
so the record is unchanged; when the member is present the push mutates it
in place; a present non-array member would make `push` throw.  For a
non-array parameter the value is assigned. -/
def storeExtracted (d : Parameter) (argName : String) (actualValue : Value) (result : Rec) : Except Failure Rec :=
  if isArrayParameter d then
    match lookupAssoc result argName with
    | some (Value.vArr xs) => .ok (assocSet result argName (Value.vArr (xs ++ [actualValue])))
    | some _ => .error (.thrown "TypeError: arr.push is not a function")
    | none => .ok result
  else
    .ok (assocSet result argName actualValue)

/-- The token scan of `extract`: each token must be a known key; a repeated
non-array option fails; boolean options record `true` without consuming a
further token; other options consume the following token as their value
(failing when none remains). -/
def extractLoop (options : List (String × Parameter)) (keyMap : List (String × String))
    (pf : String → JsNum) :
    List String → List String → Rec → Except Failure Rec
  | [], _, result => .ok result
  | v :: rest, knownArguments, result =>
    match lookupAssoc keyMap v with
    | none => .error (.userError s!"Unknown CLI parameter: \"{v}\".")
    | some argName =>
      match lookupAssoc options argName with
      | none => .error (.thrown s!"TypeError: cannot read properties of undefined for \"{argName}\"")
      | some d =>
        if knownArguments.contains argName && !(isArrayParameter d) then
          .error (.userError s!"CLI argument \"{argName}\" passed more than once, last time with key \"{v}\". This parameter is not an array parameter and expected no more than one value.")
        else
          if d.type = PType.bool then
            match storeExtracted d argName (Value.vBool true) result with
            | .error e => .error e
            | .ok r2 => extractLoop options keyMap pf rest (argName :: knownArguments) r2
          else
            match rest with
            | [] => .error (.userError s!"Expected to have some value after CLI key \"{v}\".")
            | tok :: rest2 =>
              match parseValueToken pf d.type tok with
              | .error e => .error e
              | .ok actualValue =>
                match storeExtracted d argName actualValue result with
                | .error e => .error e
                | .ok r2 => extractLoop options keyMap pf rest2 (argName :: knownArguments) r2

/-- `extract`: build the key map, then scan the raw tokens into a record. -/
def extract (env : JsEnv) (params : Params) (values : List String) : Except Failure Rec :=
  match buildKeysMap params.options with
  | .error e => .error e
  | .ok keyMap => extractLoop params.options keyMap env.parseFloat values [] []

/-- Rendering of `def.min` inside the two bound-violation messages (both
interpolate `def.min`, including the one about the upper bound). -/
def minFieldStr (env : JsEnv) (d : Parameter) : String :=
  match d.min with
  | some m => env.numToString m
  | none => "undefined"

/-- `checkAllowedValues`: nothing to check when the set is absent;
otherwise the value must occur in the set under strict equality. -/
def checkAllowedValues (env : JsEnv) (name : String) (values : Option (List Value)) (value : Value) : Except Failure Unit :=
  match values with
  | none => .ok ()
  | some vs =>
    if !(vs.any (fun x => jsStrictEq x value)) then
      let shown := env.jsonStringify value
      let allowed := String.intercalate ", " (vs.map env.jsonStringify)
      .error (.userError s!"CLI argument \"{name}\" is not in allowed values set: it\x27s {shown}, while allowed values are {allowed}")
    else .ok ()

/-- `checkNumber`, including the source's unparenthesized integer test
`def.type === "int" || def.type === "array of int" && (value % 1) !== 0`,
which fires for every value of an `"int"`-typed option. -/
def checkNumber (env : JsEnv) (name : String) (d : Parameter) (value : Option Value) : Except Failure Unit :=
  match value with
  | some (Value.vNum n) =>
    if (match d.min with | some m => JsNum.ltb n m | none => false) then
      .error (.userError s!"CLI argument \"{name}\" cannot go below {minFieldStr env d}; got {env.numToString n}.")
    else if (match d.max with | some m => JsNum.ltb m n | none => false) then
      .error (.userError s!"CLI argument \"{name}\" cannot go above {minFieldStr env d}; got {env.numToString n}.")
    else if d.type == PType.int || (d.type == PType.arrayOfInt && JsNum.fracNonzero n) then
      .error (.userError s!"CLI argument {name} expected integer, but got fractional number instead: {env.numToString n}")
    else if !(JsNum.isFinite n) then
      .error (.userError s!"Expected \"{name}\" to be a finite number, but it\x27s not: {env.numToString n}")
    else checkAllowedValues env name d.allowedValues (Value.vNum n)
  | _ => .error (.userError s!"Expected number as CLI argument {name}, but got {jsTypeofOpt value}")

/-- The length of a JS string as a JS number. -/
def jsStrLen (s : String) : JsNum := JsNum.fin (s.length : Rat)

/-- Rendering of a `minLength`/`maxLength` field inside a message. -/
def lenFieldStr (env : JsEnv) : Option Value → String
  | some (Value.vNum m) => env.numToString m
  | some (Value.vStr s) => s
  | some (Value.vBool b) => toString b
  | some (Value.vArr _) => "object"
  | none => "undefined"

/-- Rendering of the `mustMatch` RegExp inside a message. -/
def mustMatchStr (d : Parameter) : String :=
  match d.mustMatch with
  | some re => re.2
  | none => "undefined"

/-- `checkString`.  The `minLength`/`maxLength` fields are only enforced
when they hold numbers at runtime (the source checks `typeof === "number"`);
`mustMatch` is enforced when a RegExp is present. -/
def checkString (env : JsEnv) (name : String) (d : Parameter) (value : Option Value) : Except Failure Unit :=
  match value with
  | some (Value.vStr s) =>
    if (match d.minLength with
        | some (Value.vNum m) => JsNum.ltb (jsStrLen s) m
        | _ => false) then
      .error (.userError s!"CLI argument \"{name}\" is too short - must be at least {lenFieldStr env d.minLength} characters; got {s.length} characters.")
    else if (match d.maxLength with
        | some (Value.vNum m) => JsNum.ltb m (jsStrLen s)
        | _ => false) then
      .error (.userError s!"CLI argument \"{name}\" is too long - must be at most {lenFieldStr env d.maxLength} characters; got {s.length} characters.")
    else if (match d.mustMatch with
        | some re => !(re.1 s)
        | none => false) then
      .error (.userError s!"CLI argument \"{name}\" must match {mustMatchStr d}")
    else checkAllowedValues env name d.allowedValues (Value.vStr s)
  | _ => .error (.userError s!"Expected string as CLI argument {name}, but got {jsTypeofOpt value}")

/-- `checkBoolean`. -/
def checkBoolean (name : String) (value : Option Value) : Except Failure Unit :=
  match value with
  | some (Value.vBool _) => .ok ()
  | _ => .error (.userError s!"Expected boolean as CLI argument {name}, but got {jsTypeofOpt value}")

/-- The element loop of `checkArrayOf`. -/
def forEachCheck (checkInner : Value → Except Failure Unit) : List Value → Except Failure Unit
  | [] => .ok ()
  | x :: xs =>
    match checkInner x with
    | .ok _ => forEachCheck checkInner xs
    | .error e => .error e

/-- `checkArrayOf`: the value must be an array, and every element must
pass the inner check. -/
def checkArrayOf (name : String) (checkInner : Value → Except Failure Unit) (value : Option Value) : Except Failure Unit :=
  match value with
  | some (Value.vArr xs) => forEachCheck checkInner xs
  | _ => .error (.userError s!"Expected array as CLI argument {name}, but got {jsTypeofOpt value}.")

/-- The per-option dispatch of `checkConstraints`. -/
def checkOne (env : JsEnv) (result : Rec) (e : String × Parameter) : Except Failure Unit :=
  match e.2.type with
  | PType.double | PType.int => checkNumber env e.1 e.2 (lookupAssoc result e.1)
  | PType.string | PType.path => checkString env e.1 e.2 (lookupAssoc result e.1)
  | PType.bool => checkBoolean e.1 (lookupAssoc result e.1)
  | PType.arrayOfDouble | PType.arrayOfInt =>
    checkArrayOf e.1 (fun x => checkNumber env e.1 e.2 (some x)) (lookupAssoc result e.1)
  | PType.arrayOfString | PType.arrayOfPath =>
    checkArrayOf e.1 (fun x => checkString env e.1 e.2 (some x)) (lookupAssoc result e.1)

/-- The entry loop of `checkConstraints`: options are checked in order and
the first failure wins. -/
def checkConstraintsLoop (env : JsEnv) (result : Rec) : List (String × Parameter) → Except Failure Unit
  | [] => .ok ()
  | e :: rest =>
    match checkOne env result e with
    | .ok _ => checkConstraintsLoop env result rest
    | .error err => .error err

/-- `checkConstraints`. -/
def checkConstraints (env : JsEnv) (params : Params) (result : Rec) : Except Failure Unit :=
  checkConstraintsLoop env result params.options

/-- The effective resolution base: `this.params.pathResolveBase || "."`
(an empty string is falsy and also falls back to `"."`). -/
def resolveBase (params : Params) : String :=
  match params.pathResolveBase with
  | some s => if s = "" then "." else s
  | none => "."

/-- `resolvePath`: `Path.resolve(pathResolveBase || ".", argValue)`. -/
def resolvePath (env : JsEnv) (params : Params) (argValue : String) : String :=
  env.resolve (resolveBase params) argValue

/-- Resolution of every element of an `"array of path"` member; a
non-string element makes `Path.resolve` throw. -/
def resolveAllPaths (env : JsEnv) (params : Params) : List Value → Except Failure (List Value)
  | [] => .ok []
  | Value.vStr s :: xs =>
    match resolveAllPaths env params xs with
    | .ok ys => .ok (Value.vStr (resolvePath env params s) :: ys)
    | .error e => .error e
  | _ :: _ => .error (.thrown "TypeError: path argument must be of type string")

/-- The per-option loop of `setDefaults`.  The source tests membership of
the LITERAL property name `"argName"` (a quoted string, not the loop
variable): `if(!("argName" in result) && isArgumentOptional(def))` applies
the default, and `if(!("argName" in result)) continue` skips the path
resolution below it.  Whenever the record lacks a property literally named
`argName`, every optional option is therefore overwritten with its default
and the path-resolution code is never reached. -/
def setDefaultsLoop (env : JsEnv) (params : Params) : List (String × Parameter) → Rec → Except Failure Rec
  | [], result => .ok result
  | (argName, d) :: rest, result =>
    let result :=
      match d.default with
      | some dv => if !(hasKeyAssoc result "argName") then assocSet result argName dv else result
      | none => result
    if !(hasKeyAssoc result "argName") then
      setDefaultsLoop env params rest result
    else
      match d.type with
      | PType.path =>
        match lookupAssoc result argName with
        | some (Value.vStr s) =>
          setDefaultsLoop env params rest (assocSet result argName (Value.vStr (resolvePath env params s)))
        | _ => .error (.thrown "TypeError: path argument must be of type string")
      | PType.arrayOfPath =>
        match lookupAssoc result argName with
        | some (Value.vArr xs) =>
          match resolveAllPaths env params xs with
          | .ok ys => setDefaultsLoop env params rest (assocSet result argName (Value.vArr ys))
          | .error e => .error e
        | _ => .error (.thrown "TypeError: cannot map over a non-array")
      | _ => setDefaultsLoop env params rest result

/-- `setDefaults`: start from a copy of the input and run the loop. -/
def setDefaults (env : JsEnv) (params : Params) (args : Rec) : Except Failure Rec :=
  setDefaultsLoop env params params.options args

/-- `keyPart` of one help line: the keys joined by `", "` followed by the
type tag in parentheses. -/
def keyPart (e : String × Parameter) : String :=
  String.intercalate ", " e.2.keys ++ " (" ++ e.2.type.render ++ ")"

/-- The alignment width: the maximum `keyPart` length over ALL options
(hidden ones included), plus one. -/
def maxKeyLength (params : Params) : Nat :=
  (params.options.map (fun e => (keyPart e).length)).foldl Nat.max 0 + 1

/-- Right-padding with spaces up to the given width
(`while(line.length < maxKeyLength) line += " "`). -/
def padTo (n : Nat) (s : String) : String :=
  s ++ String.mk (List.replicate (n - s.length) ' ')

mutual

/-- JS `String(x)` as used by `Array.prototype.join` on allowed values. -/
def jsValueToDisplayString (env : JsEnv) : Value → String
  | Value.vBool b => toString b
  | Value.vNum n => env.numToString n
  | Value.vStr s => s
  | Value.vArr xs => String.intercalate "," (jsValueListDisplay env xs)

/-- Elementwise `String(x)` over a JS array. -/
def jsValueListDisplay (env : JsEnv) : List Value → List String
  | [] => []
  | x :: xs => jsValueToDisplayString env x :: jsValueListDisplay env xs

end

/-- Truthiness of the `description` field (an empty string is falsy). -/
def descriptionTruthy (d : Parameter) : Bool :=
  match d.description with
  | some s => !(s == "")
  | none => false

/-- One rendered (non-hidden) help line: padded key part, then the
description if truthy, then the allowed values if the field is present. -/
def renderOptionLine (env : JsEnv) (width : Nat) (e : String × Parameter) : String :=
  let line := padTo width (keyPart e)
  let line :=
    if descriptionTruthy e.2 then
      line ++ ": " ++ (e.2.description.getD "")
    else line
  match e.2.allowedValues with
  | some vs =>
    let line := if descriptionTruthy e.2 then line ++ ";" else line
    line ++ " allowed values: " ++ String.intercalate ", " (vs.map (jsValueToDisplayString env))
  | none => line

/-- The header lines of the help output (`helpHeader` when truthy). -/
def helpHeaderLines (params : Params) : List String :=
  match params.helpHeader with
  | some h => if h == "" then [] else [h]
  | none => []

/-- `printHelp`'s line construction: header, then one line per non-hidden
option, all padded to the width computed over every option. -/
def printHelpLines (env : JsEnv) (params : Params) : List String :=
  helpHeaderLines params ++
    params.options.filterMap (fun e =>
      if e.2.isHidden then none else some (renderOptionLine env (maxKeyLength params) e))

/-- Stable insertion of a key into a list sorted by descending length
(ties keep the earlier key first), matching the stable JS
`sort((a, b) => b.length - a.length)`. -/
def insertKeyDesc (x : String) : List String → List String
  | [] => [x]
  | y :: ys => if y.length ≤ x.length then x :: y :: ys else y :: insertKeyDesc x ys

/-- Stable sort of keys by descending length. -/
def sortKeysDesc : List String → List String
  | [] => []
  | x :: xs => insertKeyDesc x (sortKeysDesc xs)

/-- `getLongestKey`: the first key of the descending-by-length sort, the
option name itself when there are no keys. -/
def getLongestKey (params : Params) (opt : String) : String :=
  match lookupAssoc params.options opt with
  | some d => (sortKeysDesc d.keys).headD opt
  | none => opt

/-- The help-flag scan of `finalize`: some option is a designated help
bool whose member in the result is truthy. -/
def finalizeHaveHelp (params : Params) (result : Rec) : Bool :=
  params.options.any (fun e =>
    e.2.type == PType.bool && e.2.isHelp && jsTruthy (lookupAssoc result e.1))

/-- The absent-mandatory scan of `finalize`: names of options that are not
present in the result and are not optional, in schema order. -/
def abstentMandatories (params : Params) (result : Rec) : List String :=
  (params.options.filter (fun e =>
    !(hasKeyAssoc result e.1) && !(isArgumentOptional e.2))).map Prod.fst

/-- `finalize`: print help when a designated help flag is set and auto-help
is enabled; otherwise report absent mandatory options by their longest
keys; otherwise return the record unchanged. -/
def finalize (env : JsEnv) (params : Params) (result : Rec) : Except Failure Rec :=
  let haveHelp := finalizeHaveHelp params result
  let abstent := abstentMandatories params result
  if haveHelp && !params.noAutoHelp then
    .error (.helpShown (printHelpLines env params))
  else if !haveHelp && !(abstent.isEmpty) then
    .error (.userError ("Some mandatory CLI arguments are absent: " ++
      String.intercalate ", " (abstent.map (getLongestKey params))))
  else .ok result

/-- The `parse` pipeline on an already-constructed definition:
extract, set defaults, check constraints, finalize. -/
def parseImpl (env : JsEnv) (params : Params) (values : List String) : Except Failure Rec :=
  match extract env params values with
  | .error e => .error e
  | .ok r1 =>
    match setDefaults env params r1 with
    | .error e => .error e
    | .ok r2 =>
      match checkConstraints env params r2 with
      | .error e => .error e
      | .ok _ => finalize env params r2

/-- `define(params).parse(values)`. -/
def cliParse (env : JsEnv) (params : Params) (values : List String) : Except Failure Rec :=
  parseImpl env (cliDefine params) values

/-- The `updateStructuredArguments` pipeline on an already-constructed
definition: set defaults, check constraints, finalize (no extraction). -/
def updateImpl (env : JsEnv) (params : Params) (values : Rec) : Except Failure Rec :=
  match setDefaults env params values with
  | .error e => .error e
  | .ok r2 =>
    match checkConstraints env params r2 with
    | .error e => .error e
    | .ok _ => finalize env params r2

/-- `define(params).updateStructuredArguments(values)`. -/
def cliUpdateStructuredArguments (env : JsEnv) (params : Params) (values : Rec) : Except Failure Rec :=
  updateImpl env (cliDefine params) values

/-- A concrete number formatter agreeing with JS for the integers the
claims exercise. -/
def numToString0 : JsNum → String
  | JsNum.nan => "NaN"
  | JsNum.posInf => "Infinity"
  | JsNum.negInf => "-Infinity"
  | JsNum.fin q => if q.den = 1 then toString q.num else toString q

/-- A concrete instantiation of the external primitives, used to evaluate
the pipeline at the claims' inputs. -/
def jsEnv0 : JsEnv :=
  { resolve := fun base v => if v.startsWith "/" then v else base ++ "/" ++ v
    parseFloat := fun _ => JsNum.nan
    numToString := numToString0
    jsonStringify := fun _ => "" }

/-- Whether a fallible computation returned normally. -/
def exceptIsOk {α : Type} : Except Failure α → Bool
  | .ok _ => true
  | .error _ => false

/-- Whether a computation ended in the user-error sink. -/
def isUserError {α : Type} : Except Failure α → Bool
  | .error (.userError _) => true
  | _ => false

/-- Whether a computation ended in the help sink. -/
def isHelpShown {α : Type} : Except Failure α → Bool
  | .error (.helpShown _) => true
  | _ => false

/-- Schema with one optional double option `multiplier` (default 2). -/
def c1params : Params :=
  { options := [("multiplier", CLI.number { keys := Sum.inl "-m", default := some (Value.vNum (JsNum.fin 2)) })]
    noAutoHelp := true }

/-- A port option as built by the `port` helper: `"int"` kind with
`min = 1`, `max = 65535`. -/
def portParameter : Parameter := CLI.port { keys := Sum.inl "-p" }

/-- Schema with one mandatory string option `configPath` with keys `-c`
and `--config-path`, auto-help enabled. -/
def c37params : Params :=
  { options := [("configPath", CLI.str { keys := Sum.inr ["-c", "--config-path"] })] }

/-- Schema with one optional `"array of path"` option `preset`
(default: empty array). -/
def c4params : Params :=
  { options := [("preset", { type := PType.arrayOfPath, keys := ["--preset"], default := some (Value.vArr []) })]
    noAutoHelp := true }

/-- Schema in which two options claim the same key `-x`. -/
def dupKeyParams : Params :=
  { options := [("a", CLI.str { keys := Sum.inl "-x" }), ("b", CLI.str { keys := Sum.inl "-x" })]
    noAutoHelp := true }

/-- Schema in which an option has an empty key set. -/
def emptyKeysParams : Params :=
  { options := [("a", CLI.str { keys := Sum.inr [] })], noAutoHelp := true }

/-- Schema with one optional `"path"` option `out` whose default is the
relative string `a.json`. -/
def c6params : Params :=
  { options := [("out", { type := PType.path, keys := ["--out"], default := some (Value.vStr "a.json") })]
    noAutoHelp := true }

/-- Schema with one mandatory `"path"` option `out`. -/
def c6mparams : Params :=
  { options := [("out", { type := PType.path, keys := ["--out"] })], noAutoHelp := true }

/-- The constraint-failure message produced for the absent mandatory
option `configPath`. -/
def c7msg : String := "Expected string as CLI argument configPath, but got undefined"

/-- Whether a character-list pattern occurs at the head of a list. -/
def matchesAt : List Char → List Char → Bool
  | [], _ => true
  | _ :: _, [] => false
  | p :: ps, c :: cs => p == c && matchesAt ps cs

/-- Whether a character-list pattern occurs anywhere in a list. -/
def hasSubList (pat : List Char) : List Char → Bool
  | [] => pat.isEmpty
  | c :: cs => matchesAt pat (c :: cs) || hasSubList pat cs

/-- Whether `pat` occurs as a substring of `s`. -/
def strContains (s pat : String) : Bool := hasSubList pat.data s.data

/-- Schema with a visible short-keyed bool option and a hidden option with
a long key. -/
def c10hiddenParams : Params :=
  { options :=
      [("verbose", CLI.bool { keys := Sum.inl "-v" }),
       ("secret", { type := PType.string, keys := ["--secret-internal-key"], isHidden := true })]
    noAutoHelp := true }

/-- The same schema without the hidden option. -/
def c10visibleParams : Params :=
  { options := [("verbose", CLI.bool { keys := Sum.inl "-v" })], noAutoHelp := true }

/-- The string option owning key `-a` in the C8 example. -/
def c8alphaDef : Parameter := CLI.str { keys := Sum.inl "-a" }

/-- Options of the C8 example: `-a` and `-b` are both known keys. -/
def c8opts : List (String × Parameter) :=
  [("alpha", c8alphaDef), ("beta", CLI.str { keys := Sum.inl "-b" })]

/-- The key map `buildKeysMap` produces for `c8opts`. -/
def c8km : List (String × String) := [("-a", "alpha"), ("-b", "beta")]

/-- Schema with a single bool option `verbose` (no auto help). -/
def c9exParams : Params :=
  { options := [("verbose", CLI.bool { keys := Sum.inl "-v" })], noAutoHelp := true }

/-- Schema with a single designated help option `quiet` (no auto help). -/
def c9helpParams : Params :=
  { options := [("quiet", CLI.help { keys := Sum.inl "-q" })], noAutoHelp := true }

/-- C1.  The claim says `updateStructuredArguments` keeps supplied values
of optional fields and only fills in absent ones from defaults.  The code
disagrees: `setDefaults` tests `!("argName" in result)` — membership of
the literal string `"argName"`, not of the loop variable — so (absent an
option literally named `argName`) the test is always true and EVERY
optional option is overwritten with its default.  At the failing input
`{multiplier: 5}` against a schema whose optional `multiplier` defaults to
2, the result carries 2, not the supplied 5. -/
theorem c1_update_clobbers_supplied_optional :
    cliUpdateStructuredArguments jsEnv0 c1params [("multiplier", Value.vNum (JsNum.fin 5))]
      = .ok [("multiplier", Value.vNum (JsNum.fin 2))] := by
  rfl

/-- C2.  The claim says a numeric option with min 1 and max 65535 (the
`port` helper's `"int"` kind) accepts 1 and 65535 and rejects 0 and 65536.
In the code, `def.type === "int" || def.type === "array of int" && (value % 1) !== 0`
parses as `a || (b && c)`, so every value of an `"int"`-kind option is
routed to the error sink as a "fractional number" — including 1 and 65535,
which the claim says are accepted.  (0 and 65536 are indeed rejected, by
the bound checks, whose "above" message even interpolates `def.min`.) -/
theorem c2_port_validation_rejects_in_range_values :
    checkNumber jsEnv0 "port" portParameter (some (Value.vNum (JsNum.fin 1)))
      = .error (.userError "CLI argument port expected integer, but got fractional number instead: 1")
    ∧ checkNumber jsEnv0 "port" portParameter (some (Value.vNum (JsNum.fin 65535)))
      = .error (.userError "CLI argument port expected integer, but got fractional number instead: 65535")
    ∧ checkNumber jsEnv0 "port" portParameter (some (Value.vNum (JsNum.fin 0)))
      = .error (.userError "CLI argument \"port\" cannot go below 1; got 0.")
    ∧ checkNumber jsEnv0 "port" portParameter (some (Value.vNum (JsNum.fin 65536)))
      = .error (.userError "CLI argument \"port\" cannot go above 1; got 65536.") :=
  ⟨rfl, rfl, rfl, rfl⟩

/-- C3.  The claim says parsing `["--help"]` with auto-help enabled and a
mandatory option invokes the help sink and never the error sink.  In the
code the parsed help flag is first reset to its default `false` by the
`setDefaults` literal-`"argName"` bug, and `checkConstraints` then rejects
the absent mandatory `configPath` (`typeof undefined !== "string"`) before
`finalize`'s help short-circuit can run: the error sink is invoked and the
help sink is not. -/
theorem c3_help_parse_hits_error_sink :
    cliParse jsEnv0 c37params ["--help"] = .error (.userError c7msg)
    ∧ isHelpShown (cliParse jsEnv0 c37params ["--help"]) = false :=
  ⟨rfl, rfl⟩

/-- C4.  The claim says each occurrence of an array option's key appends
one element, so `--preset a.json --preset b.json` yields a two-element
list.  In the code, `extract` pushes the parsed value onto
`(result[argName] as unknown[]) ?? []` — a fresh local array that is never
stored back into the result — so every array value is dropped, the member
stays absent, and the final result is the option's default `[]`, not a
two-element list (independently of how paths would be resolved: the
statement is over every environment). -/
theorem c4_array_values_dropped :
    ∀ env : JsEnv,
      cliParse env c4params ["--preset", "a.json", "--preset", "b.json"]
        = .ok [("preset", Value.vArr [])] :=
  fun _ => rfl

/-- C6.  The claim says every string of a path-kind option is resolved to
an absolute path against the base, uniformly for defaults and parsed
values.  In the code the resolution branch of `setDefaults` sits below the
`if(!("argName" in result)) continue` literal-string test and is therefore
never reached: the default `a.json` and the supplied token `rel.txt` both
survive verbatim, for EVERY resolution primitive (the statement quantifies
over the environment).  The `path()`/`pathArr()` builders additionally tag
their outputs `"string"`/`"array of string"`, so they never produce a
path-kind option at all. -/
theorem c6_path_values_never_resolved :
    (∀ env : JsEnv, cliParse env c6params [] = .ok [("out", Value.vStr "a.json")])
    ∧ (∀ env : JsEnv, cliParse env c6mparams ["--out", "rel.txt"] = .ok [("out", Value.vStr "rel.txt")])
    ∧ (∀ p : HelperOpts, (CLI.path p).type = PType.string ∧ (CLI.pathArr p).type = PType.arrayOfString) :=
  ⟨fun _ => rfl, fun _ => rfl, fun _ => ⟨rfl, rfl⟩⟩

/-- C7.  The claim says parsing `[]` against a schema with mandatory
`configPath` (keys `-c`, `--config-path`) produces a missing-mandatory
message naming the longest key `--config-path`.  In the code,
`checkConstraints` rejects the absent value with a type-mismatch message
first, so `finalize`'s `MissingMandatoryArguments` branch (which would
indeed pick `--config-path` via `getLongestKey`) is unreachable; the
emitted message does not contain `--config-path` at all. -/
theorem c7_missing_mandatory_message_unreachable :
    cliParse jsEnv0 c37params [] = .error (.userError c7msg)
    ∧ strContains c7msg "--config-path" = false
    ∧ getLongestKey (cliDefine c37params) "configPath" = "--config-path" :=
  ⟨rfl, rfl, rfl⟩

/-- C5, counterexample.  The claim says `define` raises the duplicate-key
construction error immediately at `define(...)` time.  On the concrete
schema `dupKeyParams`, whose two options both claim the key `-x`, `define`
returns the definition normally (the constructor only normalizes the help
option; it never builds the key map). -/
theorem c5_counterexample_define_accepts_duplicate_key :
    cliDefineE dupKeyParams = .ok dupKeyParams :=
  rfl

/-- C5, amended.  `define` succeeds on EVERY schema; the duplicate-key and
empty-key-set construction errors are raised when the key map is built,
which happens on each `parse` call (here: parsing `[]`), and never on the
`updateStructuredArguments` path, which does not build the key map and
accepts the duplicate-key schema outright. -/
theorem c5_construction_errors_deferred_to_parse :
    (∀ p : Params, exceptIsOk (cliDefineE p) = true)
    ∧ cliParse jsEnv0 dupKeyParams []
        = .error (.thrown "CLI argument key \"-x\" is bound to more than one argument: \"b\", \"a\".")
    ∧ cliParse jsEnv0 emptyKeysParams []
        = .error (.thrown "CLI argument \"a\" has no keys with which it could be passed.")
    ∧ exceptIsOk (cliUpdateStructuredArguments jsEnv0 dupKeyParams
        [("a", Value.vStr "x"), ("b", Value.vStr "y")]) = true :=
  ⟨fun _ => rfl, rfl, rfl, rfl⟩

/-- A filterMap whose function is a guard followed by a map is the
corresponding filter followed by the map. -/
theorem filterMap_guard_eq_filter_map {α β : Type} (p : α → Bool) (f : α → β) (l : List α) :
    l.filterMap (fun a => if p a then none else some (f a))
      = (l.filter (fun a => !(p a))).map f := by
  induction l with
  | nil => rfl
  | cons x xs ih =>
    cases h : p x <;> simp [List.filterMap_cons, List.filter_cons, h, ih]

/-- C10.  Help rendering computes its alignment width as the maximum
key-column length over ALL options — hidden ones included — while hidden
options contribute no line: every rendered line belongs to a non-hidden
option, padded to the global width.  Concretely, the hidden option with
key `--secret-internal-key` forces width 31, so the only rendered line
(`-v (bool)` padded) is 31 characters wide; removing the hidden option
shrinks the width to 10. -/
theorem c10_hidden_options_widen_padding :
    (∀ (env : JsEnv) (params : Params),
      printHelpLines env params
        = helpHeaderLines params ++
            (params.options.filter (fun e => !(e.2.isHidden))).map
              (renderOptionLine env (maxKeyLength params)))
    ∧ maxKeyLength c10hiddenParams = 31
    ∧ maxKeyLength c10visibleParams = 10
    ∧ printHelpLines jsEnv0 c10hiddenParams = [padTo 31 "-v (bool)"]
    ∧ printHelpLines jsEnv0 c10visibleParams = [padTo 10 "-v (bool)"]
    ∧ (printHelpLines jsEnv0 c10hiddenParams).map String.length = [31]
    ∧ (printHelpLines jsEnv0 c10visibleParams).map String.length = [10] := by
  refine ⟨fun env params => ?_, rfl, rfl, rfl, rfl, rfl, rfl⟩
  unfold printHelpLines
  rw [filterMap_guard_eq_filter_map (fun e => e.2.isHidden)
    (renderOptionLine env (maxKeyLength params)) params.options]

/-- C8.  When a non-boolean option's key `k` is followed by a token `v`
that is itself a known key (hypothesis `hvkey`, which the proof never
needs — the scan does not consult the key map for the value position), the
extractor still consumes `v` positionally: the value is computed from `v`
by the value-token switch (verbatim or number-parsed), stored, and the
scan resumes AFTER both tokens with the option recorded as seen. -/
theorem c8_value_token_not_reinterpreted
    (options : List (String × Parameter)) (keyMap : List (String × String))
    (pf : String → JsNum) (k v : String) (rest : List String)
    (known : List String) (result : Rec) (argName : String) (d : Parameter)
    (hk : lookupAssoc keyMap k = some argName)
    (ho : lookupAssoc options argName = some d)
    (hnb : d.type ≠ PType.bool)
    (hnd : (known.contains argName && !(isArrayParameter d)) = false)
    (hvkey : (lookupAssoc keyMap v).isSome = true) :
    extractLoop options keyMap pf (k :: v :: rest) known result
      = match parseValueToken pf d.type v with
        | .error e => .error e
        | .ok actualValue =>
          match storeExtracted d argName actualValue result with
          | .error e => .error e
          | .ok r2 => extractLoop options keyMap pf rest (argName :: known) r2 := by
  simp only [extractLoop, hk, ho, hnd, Bool.false_eq_true, if_false]
  rw [if_neg hnb]

/-- C8 witness: `-b` is a known key, yet `-a -b` records it as the value
of `alpha`. -/
theorem c8_value_token_not_reinterpreted_witness :
    (lookupAssoc c8km "-b").isSome = true
    ∧ extractLoop c8opts c8km jsEnv0.parseFloat ["-a", "-b"] [] []
        = .ok [("alpha", Value.vStr "-b")] :=
  ⟨rfl, (c8_value_token_not_reinterpreted c8opts c8km jsEnv0.parseFloat "-a" "-b" [] [] []
      "alpha" c8alphaDef rfl rfl (by decide) rfl rfl).trans rfl⟩

theorem lookupAssoc_assocSet_self {α : Type} (l : List (String × α)) (k : String) (v : α) :
    lookupAssoc (assocSet l k v) k = some v := by
  induction l with
  | nil => simp [assocSet, lookupAssoc]
  | cons e rest ih =>
    obtain ⟨e1, e2⟩ := e
    by_cases hk : e1 = k
    · simp [assocSet, hk, lookupAssoc]
    · simp [assocSet, hk, lookupAssoc, ih]

theorem lookupAssoc_assocSet_ne {α : Type} (l : List (String × α)) (k n : String) (v : α)
    (h : n ≠ k) : lookupAssoc (assocSet l k v) n = lookupAssoc l n := by
  have hkn : ¬(k = n) := fun hh => h hh.symm
  induction l with
  | nil => simp [assocSet, lookupAssoc, hkn]
  | cons e rest ih =>
    obtain ⟨e1, e2⟩ := e
    by_cases hk : e1 = k
    · subst hk
      simp [assocSet, lookupAssoc, hkn]
    · simp [assocSet, hk, lookupAssoc, ih]

theorem lookupAssoc_mem {α : Type} (l : List (String × α)) (k : String) (v : α)
    (h : lookupAssoc l k = some v) : (k, v) ∈ l := by
  induction l with
  | nil => simp [lookupAssoc] at h
  | cons e rest ih =>
    obtain ⟨e1, e2⟩ := e
    by_cases hk : e1 = k
    · subst hk
      simp only [lookupAssoc, if_pos] at h
      cases h
      exact List.mem_cons_self _ _
    · simp only [lookupAssoc] at h
      rw [if_neg hk] at h
      exact List.mem_cons_of_mem _ (ih h)

theorem lookupAssoc_unique {α : Type} (l : List (String × α)) (k : String) (v : α)
    (hnod : (l.map Prod.fst).Nodup) (hl : lookupAssoc l k = some v) :
    ∀ e ∈ l, e.1 = k → e.2 = v := by
  induction l with
  | nil => intro e he; simp at he
  | cons x rest ih =>
    intro e he hek
    simp only [List.map_cons, List.nodup_cons] at hnod
    by_cases hk : x.1 = k
    · simp only [lookupAssoc] at hl
      rw [if_pos hk] at hl
      cases hl
      rcases List.mem_cons.mp he with he | he
      · rw [he]
      · exfalso
        apply hnod.1
        rw [hk, ← hek]
        exact List.mem_map_of_mem Prod.fst he
    · simp only [lookupAssoc] at hl
      rw [if_neg hk] at hl
      rcases List.mem_cons.mp he with he | he
      · exact absurd (he ▸ hek) hk
      · exact ih hnod.2 hl e he hek

theorem lookupAssoc_append_left {α : Type} (l1 l2 : List (String × α)) (k : String) (v : α)
    (h : lookupAssoc l1 k = some v) : lookupAssoc (l1 ++ l2) k = some v := by
  induction l1 with
  | nil => simp [lookupAssoc] at h
  | cons e rest ih =>
    obtain ⟨e1, e2⟩ := e
    by_cases hk : e1 = k
    · simp only [lookupAssoc] at h
      rw [if_pos hk] at h
      simp [List.cons_append, lookupAssoc, hk, h]
    · simp only [lookupAssoc] at h
      rw [if_neg hk] at h
      simp [List.cons_append, lookupAssoc, hk, ih h]

theorem lookupAssoc_append_right {α : Type} (l1 l2 : List (String × α)) (k : String)
    (h : lookupAssoc l1 k = none) : lookupAssoc (l1 ++ l2) k = lookupAssoc l2 k := by
  induction l1 with
  | nil => simp
  | cons e rest ih =>
    obtain ⟨e1, e2⟩ := e
    by_cases hk : e1 = k
    · simp only [lookupAssoc] at h
      rw [if_pos hk] at h
      cases h
    · simp only [lookupAssoc] at h
      rw [if_neg hk] at h
      simp [List.cons_append, lookupAssoc, hk, ih h]

theorem addKeys_sound (a : String) (ks : List String) (acc acc2 : List (String × String))
    (h : addKeys a ks acc = .ok acc2) (t n : String)
    (hl : lookupAssoc acc2 t = some n) :
    lookupAssoc acc t = some n ∨ (n = a ∧ t ∈ ks) := by
  induction ks generalizing acc with
  | nil =>
    simp only [addKeys] at h
    cases h
    exact Or.inl hl
  | cons k ks ih =>
    simp only [addKeys] at h
    cases hE : lookupAssoc acc k with
    | some other => rw [hE] at h; cases h
    | none =>
      rw [hE] at h
      rcases ih (acc ++ [(k, a)]) h with hacc | ⟨hn, ht⟩
      · cases hL : lookupAssoc acc t with
        | some w =>
          rw [lookupAssoc_append_left acc [(k, a)] t w hL] at hacc
          exact Or.inl hacc
        | none =>
          rw [lookupAssoc_append_right acc [(k, a)] t hL] at hacc
          simp only [lookupAssoc] at hacc
          by_cases hkt : k = t
          · rw [if_pos hkt] at hacc
            injection hacc with h1
            exact Or.inr ⟨h1.symm, by rw [← hkt]; exact List.mem_cons_self _ _⟩
          · rw [if_neg hkt] at hacc
            cases hacc
      · exact Or.inr ⟨hn, List.mem_cons_of_mem _ ht⟩

theorem buildKeysMapLoop_sound (entries : List (String × Parameter))
    (names : List String) (acc km : List (String × String))
    (h : buildKeysMapLoop entries names acc = .ok km) (t n : String)
    (hl : lookupAssoc km t = some n) :
    lookupAssoc acc t = some n ∨ ∃ d, (n, d) ∈ entries ∧ t ∈ d.keys := by
  induction entries generalizing names acc with
  | nil =>
    simp only [buildKeysMapLoop] at h
    cases h
    exact Or.inl hl
  | cons e rest ih =>
    obtain ⟨a, d⟩ := e
    simp only [buildKeysMapLoop] at h
    by_cases h0 : d.keys.length = 0
    · rw [if_pos h0] at h; cases h
    · rw [if_neg h0] at h
      by_cases hc : names.contains a
      · rw [if_pos hc] at h; cases h
      · rw [if_neg hc] at h
        cases hA : addKeys a d.keys acc with
        | error e => rw [hA] at h; cases h
        | ok acc2 =>
          rw [hA] at h
          rcases ih (a :: names) acc2 h with hacc2 | ⟨d2, hmem, ht⟩
          · rcases addKeys_sound a d.keys acc acc2 hA t n hacc2 with hacc | ⟨hn, ht⟩
            · exact Or.inl hacc
            · exact Or.inr ⟨d, by rw [hn]; exact List.mem_cons_self _ _, ht⟩
          · exact Or.inr ⟨d2, List.mem_cons_of_mem _ hmem, ht⟩

theorem buildKeysMap_sound (opts : List (String × Parameter)) (km : List (String × String))
    (h : buildKeysMap opts = .ok km) (t n : String)
    (hl : lookupAssoc km t = some n) :
    ∃ d, (n, d) ∈ opts ∧ t ∈ d.keys := by
  rcases buildKeysMapLoop_sound opts [] [] km h t n hl with hacc | hex
  · simp [lookupAssoc] at hacc
  · exact hex

theorem storeExtracted_preserve (d : Parameter) (a : String) (val : Value) (res r2 : Rec)
    (name : String) (hne : a ≠ name) (h : storeExtracted d a val res = .ok r2) :
    lookupAssoc r2 name = lookupAssoc res name := by
  simp only [storeExtracted] at h
  by_cases hia : isArrayParameter d = true
  · rw [if_pos hia] at h
    cases hv : lookupAssoc res a with
    | none => rw [hv] at h; cases h; rfl
    | some w =>
      rw [hv] at h
      cases w with
      | vArr xs =>
        cases h
        exact lookupAssoc_assocSet_ne res a name _ (fun hh => hne hh.symm)
      | vBool b => cases h
      | vNum x => cases h
      | vStr s => cases h
  · rw [if_neg hia] at h
    cases h
    exact lookupAssoc_assocSet_ne res a name _ (fun hh => hne hh.symm)

theorem extractLoop_absent (options : List (String × Parameter)) (km : List (String × String))
    (pf : String → JsNum) (name : String) :
    ∀ (tokens known : List String) (res r : Rec),
      (∀ t ∈ tokens, lookupAssoc km t ≠ some name) →
      lookupAssoc res name = none →
      extractLoop options km pf tokens known res = .ok r →
      lookupAssoc r name = none := by
  intro tokens known res
  induction tokens, known, res using extractLoop.induct options km pf
  case case1 known res =>
    intro r _ hres hok
    simp only [extractLoop] at hok
    injection hok with h
    rw [← h]
    exact hres
  case case2 v rest known res hkm =>
    intro r htok hres hok
    simp [extractLoop, hkm] at hok
  case case3 v rest known res argName hkm hopt =>
    intro r htok hres hok
    simp [extractLoop, hkm, hopt] at hok
  case case4 v rest known res argName hkm d hopt hdup =>
    intro r htok hres hok
    simp only [extractLoop, hkm, hopt] at hok
    rw [if_pos hdup] at hok
    exact Except.noConfusion hok
  case case5 v rest known res argName hkm d hopt hdup htype e hstore =>
    intro r htok hres hok
    simp only [extractLoop, hkm, hopt] at hok
    rw [if_neg hdup, if_pos htype] at hok
    simp only [hstore] at hok
    exact Except.noConfusion hok
  case case6 v rest known res argName hkm d hopt hdup htype r2 hstore ih =>
    intro r htok hres hok
    have hne : argName ≠ name := by
      intro hEq
      exact htok v (List.mem_cons_self _ _) (hEq ▸ hkm)
    have hr2 : lookupAssoc r2 name = none := by
      rw [storeExtracted_preserve d argName (Value.vBool true) res r2 name hne hstore]
      exact hres
    simp only [extractLoop, hkm, hopt] at hok
    rw [if_neg hdup, if_pos htype] at hok
    simp only [hstore] at hok
    exact ih r (fun t ht => htok t (List.mem_cons_of_mem _ ht)) hr2 hok
  case case7 v known res argName hkm d hopt hdup htype =>
    intro r htok hres hok
    simp only [extractLoop, hkm, hopt] at hok
    rw [if_neg hdup, if_neg htype] at hok
    simp at hok
  case case8 v known res argName hkm d hopt hdup htype tok rest2 e hpv =>
    intro r htok hres hok
    simp only [extractLoop, hkm, hopt] at hok
    rw [if_neg hdup, if_neg htype] at hok
    simp only [hpv] at hok
    exact Except.noConfusion hok
  case case9 v known res argName hkm d hopt hdup htype tok rest2 av hpv e hstore =>
    intro r htok hres hok
    simp only [extractLoop, hkm, hopt] at hok
    rw [if_neg hdup, if_neg htype] at hok
    simp only [hpv, hstore] at hok
    exact Except.noConfusion hok
  case case10 v known res argName hkm d hopt hdup htype tok rest2 av hpv r2 hstore ih =>
    intro r htok hres hok
    have hne : argName ≠ name := by
      intro hEq
      exact htok v (List.mem_cons_self _ _) (hEq ▸ hkm)
    have hr2 : lookupAssoc r2 name = none := by
      rw [storeExtracted_preserve d argName av res r2 name hne hstore]
      exact hres
    simp only [extractLoop, hkm, hopt] at hok
    rw [if_neg hdup, if_neg htype] at hok
    simp only [hpv, hstore] at hok
    exact ih r (fun t ht => htok t (List.mem_cons_of_mem _ (List.mem_cons_of_mem _ ht))) hr2 hok

theorem setDefaultsLoop_bool_value (env : JsEnv) (P : Params) (name : String) (bd : Parameter)
    (hdef : bd.default = some (Value.vBool false))
    (htype : bd.type = PType.bool) :
    ∀ (entries : List (String × Parameter)) (res r2 : Rec),
      (∀ e ∈ entries, e.1 = name → e.2 = bd) →
      (lookupAssoc res name = none ∨ lookupAssoc res name = some (Value.vBool false)) →
      setDefaultsLoop env P entries res = .ok r2 →
      (lookupAssoc r2 name = none ∨ lookupAssoc r2 name = some (Value.vBool false)) := by
  intro entries
  induction entries with
  | nil =>
    intro res r2 _ hinv hok
    simp only [setDefaultsLoop] at hok
    injection hok with h
    rw [← h]
    exact hinv
  | cons e rest ih =>
    intro res r2 hH hinv hok
    obtain ⟨m, dm⟩ := e
    have hHhead : m = name → dm = bd := fun hmn => hH (m, dm) (List.mem_cons_self _ _) hmn
    have hHrest : ∀ e2 ∈ rest, e2.1 = name → e2.2 = bd :=
      fun e2 he2 => hH e2 (List.mem_cons_of_mem _ he2)
    cases hd : dm.default with
    | none =>
      simp only [setDefaultsLoop, hd] at hok
      by_cases hk1 : (!hasKeyAssoc res "argName") = true
      · rw [if_pos hk1] at hok
        exact ih res r2 hHrest hinv hok
      · rw [if_neg hk1] at hok
        by_cases hmn : m = name
        · exfalso
          have hdm := hHhead hmn
          rw [hdm, hdef] at hd
          exact Option.noConfusion hd
        · have hne : name ≠ m := fun h => hmn h.symm
          cases htp : dm.type <;> simp only [htp] at hok <;>
          first
            | exact ih _ r2 hHrest hinv hok
            | (cases hv : lookupAssoc res m with
               | none => simp [hv] at hok
               | some w =>
                 cases w with
                 | vStr s =>
                   first
                     | (rw [hv] at hok
                        exact ih _ r2 hHrest
                          (by rw [lookupAssoc_assocSet_ne res m name _ hne]; exact hinv) hok)
                     | simp [hv] at hok
                 | vArr xs =>
                   first
                     | (cases hra : resolveAllPaths env P xs with
                        | error e2 => simp [hv, hra] at hok
                        | ok ys =>
                          rw [hv] at hok
                          simp only [hra] at hok
                          exact ih _ r2 hHrest
                            (by rw [lookupAssoc_assocSet_ne res m name _ hne]; exact hinv) hok)
                     | simp [hv] at hok
                 | vBool b => simp [hv] at hok
                 | vNum n => simp [hv] at hok)
    | some dv =>
      simp only [setDefaultsLoop, hd] at hok
      by_cases hk : (!hasKeyAssoc res "argName") = true
      · rw [if_pos hk] at hok
        have hinv1 : lookupAssoc (assocSet res m dv) name = none ∨
            lookupAssoc (assocSet res m dv) name = some (Value.vBool false) := by
          by_cases hmn : m = name
          · have hdm := hHhead hmn
            rw [hdm, hdef] at hd
            injection hd with hdv
            subst hmn
            right
            rw [lookupAssoc_assocSet_self, hdv]
          · rw [lookupAssoc_assocSet_ne res m name dv (fun h => hmn h.symm)]
            exact hinv
        by_cases hk1 : (!hasKeyAssoc (assocSet res m dv) "argName") = true
        · rw [if_pos hk1] at hok
          exact ih _ r2 hHrest hinv1 hok
        · rw [if_neg hk1] at hok
          by_cases hmn : m = name
          · have hdm := hHhead hmn
            simp only [hdm, htype] at hok
            exact ih _ r2 hHrest hinv1 hok
          · have hne : name ≠ m := fun h => hmn h.symm
            cases htp : dm.type <;> simp only [htp] at hok <;>
            first
              | exact ih _ r2 hHrest hinv1 hok
              | (cases hv : lookupAssoc (assocSet res m dv) m with
                 | none => simp [hv] at hok
                 | some w =>
                   cases w with
                   | vStr s =>
                     first
                       | (rw [hv] at hok
                          exact ih _ r2 hHrest
                            (by rw [lookupAssoc_assocSet_ne _ m name _ hne]; exact hinv1) hok)
                       | simp [hv] at hok
                   | vArr xs =>
                     first
                       | (cases hra : resolveAllPaths env P xs with
                          | error e2 => simp [hv, hra] at hok
                          | ok ys =>
                            rw [hv] at hok
                            simp only [hra] at hok
                            exact ih _ r2 hHrest
                              (by rw [lookupAssoc_assocSet_ne _ m name _ hne]; exact hinv1) hok)
                       | simp [hv] at hok
                   | vBool b => simp [hv] at hok
                   | vNum n => simp [hv] at hok)
      · rw [if_neg hk] at hok
        rw [if_neg hk] at hok
        by_cases hmn : m = name
        · have hdm := hHhead hmn
          simp only [hdm, htype] at hok
          exact ih res r2 hHrest hinv hok
        · have hne : name ≠ m := fun h => hmn h.symm
          cases htp : dm.type <;> simp only [htp] at hok <;>
          first
            | exact ih _ r2 hHrest hinv hok
            | (cases hv : lookupAssoc res m with
               | none => simp [hv] at hok
               | some w =>
                 cases w with
                 | vStr s =>
                   first
                     | (rw [hv] at hok
                        exact ih _ r2 hHrest
                          (by rw [lookupAssoc_assocSet_ne res m name _ hne]; exact hinv) hok)
                     | simp [hv] at hok
                 | vArr xs =>
                   first
                     | (cases hra : resolveAllPaths env P xs with
                        | error e2 => simp [hv, hra] at hok
                        | ok ys =>
                          rw [hv] at hok
                          simp only [hra] at hok
                          exact ih _ r2 hHrest
                            (by rw [lookupAssoc_assocSet_ne res m name _ hne]; exact hinv) hok)
                     | simp [hv] at hok
                 | vBool b => simp [hv] at hok
                 | vNum n => simp [hv] at hok)

theorem checkConstraintsLoop_all (env : JsEnv) (result : Rec) :
    ∀ (entries : List (String × Parameter)),
      checkConstraintsLoop env result entries = .ok () →
      ∀ e ∈ entries, checkOne env result e = .ok () := by
  intro entries
  induction entries with
  | nil => intro _ e he; simp at he
  | cons x rest ih =>
    intro hok e he
    simp only [checkConstraintsLoop] at hok
    cases hc : checkOne env result x with
    | error err => rw [hc] at hok; exact Except.noConfusion hok
    | ok u =>
      rw [hc] at hok
      rcases List.mem_cons.mp he with he | he
      · rw [he]
        cases u
        exact hc
      · exact ih hok e he

theorem checkBoolean_shape (name : String) (v : Option Value)
    (h : checkBoolean name v = .ok ()) : ∃ b, v = some (Value.vBool b) := by
  match v with
  | none => simp [checkBoolean] at h
  | some (Value.vBool b) => exact ⟨b, rfl⟩
  | some (Value.vNum n) => simp [checkBoolean] at h
  | some (Value.vStr s) => simp [checkBoolean] at h
  | some (Value.vArr xs) => simp [checkBoolean] at h

theorem finalize_ok_eq (env : JsEnv) (P : Params) (r r2 : Rec)
    (h : finalize env P r = .ok r2) : r2 = r := by
  simp only [finalize] at h
  by_cases h1 : (finalizeHaveHelp P r && !P.noAutoHelp) = true
  · rw [if_pos h1] at h
    exact Except.noConfusion h
  · rw [if_neg h1] at h
    by_cases h2 : (!finalizeHaveHelp P r && !(abstentMandatories P r).isEmpty) = true
    · rw [if_pos h2] at h
      exact Except.noConfusion h
    · rw [if_neg h2] at h
      injection h with h
      exact h.symm

/-- C9.  Boolean options built by `bool()` and `help()` carry `default:
false`, hence are optional; an optional option can never be collected into
`finalize`'s missing-mandatory list (for schemas with unique option names,
as JS object schemas always have); and whenever `parse` of a token
sequence containing none of the option's keys returns a result, that
result maps the option to `false` rather than leaving it absent — the
last part stated for an option built by either builder (`d = CLI.bool p`
or `d = CLI.help p`). -/
theorem c9_bool_options_optional_default_false :
    (∀ p : HelperOpts,
      (CLI.bool p).default = some (Value.vBool false)
      ∧ (CLI.help p).default = some (Value.vBool false)
      ∧ isArgumentOptional (CLI.bool p) = true
      ∧ isArgumentOptional (CLI.help p) = true)
    ∧ (∀ (P : Params) (result : Rec) (name : String) (d : Parameter),
        (P.options.map Prod.fst).Nodup →
        lookupAssoc P.options name = some d →
        isArgumentOptional d = true →
        name ∉ abstentMandatories P result)
    ∧ (∀ (env : JsEnv) (params : Params) (name : String) (d : Parameter) (p : HelperOpts)
        (tokens : List String) (r : Rec),
        ((cliDefine params).options.map Prod.fst).Nodup →
        (d = CLI.bool p ∨ d = CLI.help p) →
        lookupAssoc (cliDefine params).options name = some d →
        (∀ t ∈ tokens, t ∉ d.keys) →
        cliParse env params tokens = .ok r →
        lookupAssoc r name = some (Value.vBool false)) := by
  refine ⟨fun p => ⟨rfl, rfl, rfl, rfl⟩, ?_, ?_⟩
  · intro P result name d hnod hld hopt hmem
    simp only [abstentMandatories] at hmem
    rcases List.mem_map.mp hmem with ⟨e, hef, hee⟩
    rcases List.mem_filter.mp hef with ⟨hmem2, hcond⟩
    have hed : e.2 = d := lookupAssoc_unique P.options name d hnod hld e hmem2 hee
    rw [hed, hopt] at hcond
    simp at hcond
  · intro env params name d p tokens r hnod hbd hld hkeys hok
    have hdef : d.default = some (Value.vBool false) := by
      rcases hbd with h | h <;> rw [h] <;> rfl
    have htype : d.type = PType.bool := by
      rcases hbd with h | h <;> rw [h] <;> rfl
    simp only [cliParse, parseImpl] at hok
    cases hE : extract env (cliDefine params) tokens with
    | error e => simp only [hE] at hok; exact Except.noConfusion hok
    | ok r1 =>
      simp only [hE] at hok
      cases hS : setDefaults env (cliDefine params) r1 with
      | error e => simp only [hS] at hok; exact Except.noConfusion hok
      | ok r2 =>
        simp only [hS] at hok
        cases hC : checkConstraints env (cliDefine params) r2 with
        | error e => simp only [hC] at hok; exact Except.noConfusion hok
        | ok u =>
          cases u
          simp only [hC] at hok
          have hH : ∀ e ∈ (cliDefine params).options, e.1 = name → e.2 = d :=
            fun e he h1 => lookupAssoc_unique (cliDefine params).options name d hnod hld e he h1
          simp only [extract] at hE
          cases hB : buildKeysMap (cliDefine params).options with
          | error e => simp only [hB] at hE; exact Except.noConfusion hE
          | ok km =>
            simp only [hB] at hE
            have htokens : ∀ t ∈ tokens, lookupAssoc km t ≠ some name := by
              intro t ht hEq
              rcases buildKeysMap_sound (cliDefine params).options km hB t name hEq with ⟨d2, hd2mem, htk⟩
              have hd2 : d2 = d := hH (name, d2) hd2mem rfl
              exact hkeys t ht (hd2 ▸ htk)
            have hr1 : lookupAssoc r1 name = none :=
              extractLoop_absent (cliDefine params).options km env.parseFloat name
                tokens [] [] r1 htokens rfl hE
            simp only [setDefaults] at hS
            have hinv2 := setDefaultsLoop_bool_value env (cliDefine params) name d
              hdef htype (cliDefine params).options r1 r2 hH (Or.inl hr1) hS
            simp only [checkConstraints] at hC
            have hcm : (name, d) ∈ (cliDefine params).options :=
              lookupAssoc_mem _ _ _ hld
            have hone := checkConstraintsLoop_all env r2 (cliDefine params).options hC
              (name, d) hcm
            simp only [checkOne, htype] at hone
            obtain ⟨b, hb⟩ := checkBoolean_shape name _ hone
            rcases hinv2 with hnone | hfalse
            · rw [hb] at hnone
              exact Option.noConfusion hnone
            · have hr : r = r2 := finalize_ok_eq env (cliDefine params) r2 r hok
              rw [hr]
              exact hfalse

/-- C9 witness: instantiating the third component at a `bool()`-option
schema and at a `help()`-option schema, each with the empty token sequence
and the computed parse result. -/
theorem c9_bool_options_optional_default_false_witness :
    (cliParse jsEnv0 c9exParams [] = .ok [("verbose", Value.vBool false)]
      ∧ lookupAssoc [("verbose", Value.vBool false)] "verbose" = some (Value.vBool false))
    ∧ (cliParse jsEnv0 c9helpParams [] = .ok [("quiet", Value.vBool false)]
      ∧ lookupAssoc [("quiet", Value.vBool false)] "quiet" = some (Value.vBool false)) :=
  ⟨⟨rfl,
    c9_bool_options_optional_default_false.2.2 jsEnv0 c9exParams "verbose"
      (CLI.bool { keys := Sum.inl "-v" }) { keys := Sum.inl "-v" } []
      [("verbose", Value.vBool false)]
      (by decide) (Or.inl rfl) rfl (fun t ht => absurd ht (List.not_mem_nil t)) rfl⟩,
   ⟨rfl,
    c9_bool_options_optional_default_false.2.2 jsEnv0 c9helpParams "quiet"
      (CLI.help { keys := Sum.inl "-q" }) { keys := Sum.inl "-q" } []
      [("quiet", Value.vBool false)]
      (by decide) (Or.inr rfl) rfl (fun t ht => absurd ht (List.not_mem_nil t)) rfl⟩⟩

end CliSpec
